import Mathlib

/-!
# Verification of the AI sales-assistant chatbot core

A shallow embedding of the lead-qualification pipeline of `chatbot.py`
(and the notifier of `send_email.py`), together with theorems settling
the specification claims about it.

Modelling conventions:
* A Python dict holding lead attributes is a function `String → Option (Option String)`:
  `none` means the key is absent, `some none` means the key is present with value
  `None`, `some (some s)` means the key holds the string `s`.
* Python truthiness of a slot value (used by the scorer and by the merge filter
  `if v`) is `truthyStr`: a non-empty string.
* External calls (embedding+store round trip, model extraction call, completion
  call, DB round trip, HTTP post of the notifier) are passed in as `Except` /
  `Bool` oracles; a `try/except` around a call becomes a `match` on its outcome.
* The regex matchers for email and phone are abstract parameters
  `String → Option String` (`re.search` returning the matched text or `None`);
  the claims about the deterministic pass concern the scanning loop, not the
  regex engine.
-/

namespace Chatbot

/-- A conversation turn, as the `{"role": ..., "content": ...}` dicts of
`chatbot.py` (timestamps are irrelevant to the claims and omitted). -/
structure Msg where
  role : String
  content : String
deriving Repr, DecidableEq

/-- A Python dict from string keys to string-or-`None` values.
`none` = key absent; `some none` = key present, value `None`;
`some (some s)` = key present, value `s`. -/
def Dict : Type := String → Option (Option String)

/-- `d.get(k)` with default `None`: collapses "absent" and "present with None". -/
def dictGet (d : Dict) (k : String) : Option String :=
  (d k).getD none

/-- `d[k] = v` (functional update). -/
def dictSet (d : Dict) (k : String) (v : Option String) : Dict :=
  fun k2 => if k2 = k then some v else d k2

/-- Python truthiness of a string-or-`None` value: `None` and `""` are falsy. -/
def truthyStr : Option String → Bool
  | some s => s != ""
  | none => false

/-- The fixed attribute schema of `lead_data` in `extract_lead_info`
(`chatbot.py` lines 90-101). -/
def schemaKeys : List String :=
  ["name", "email", "phone_number", "vehicle_type", "make_model_preference",
   "new_or_used", "budget_range", "trade_in", "financing_needed", "priorities"]

/-- The initial `lead_data` dict: every schema key present with value `None`. -/
def lead_data_init : Dict :=
  fun k => if k ∈ schemaKeys then some none else none

/-- The body of the scanning loop of `extract_lead_info`
(`chatbot.py` lines 104-114): on a user-authored turn, overwrite the email
field if the email pattern matched, then the phone field if the phone pattern
matched. -/
def scanStep (findEmail findPhone : String → Option String)
    (d : Dict) (msg : Msg) : Dict :=
  if msg.role = "user" then
    let d1 := match findEmail msg.content with
      | some e => dictSet d "email" (some e)
      | none => d
    match findPhone msg.content with
      | some p => dictSet d1 "phone_number" (some p)
      | none => d1
  else d

/-- The deterministic extraction pass (`chatbot.py` lines 103-114): scan the
history in order, applying `scanStep` to each turn. -/
def scanContact (findEmail findPhone : String → Option String)
    (hist : List Msg) (d : Dict) : Dict :=
  hist.foldl (scanStep findEmail findPhone) d

/-- Applying the model pass to `lead_data`
(`lead_data.update(\x7bk: v for k, v in extracted.items() if v\x7d)`,
`chatbot.py` line 141): every truthy entry of the parsed model output
overwrites the current dict, in order. -/
def applyModelItems (d : Dict) (items : List (String × Option String)) : Dict :=
  items.foldl (fun d kv => if truthyStr kv.2 then dictSet d kv.1 kv.2 else d) d

/-- `extract_lead_info` (`chatbot.py` lines 88-145): deterministic pass over the
history, then the model-assisted pass whose outcome `modelOut` is either the
parsed JSON object (a key/value list) or a failure (call error or
`json.loads` error — both are swallowed by the bare `except`). -/
def extract_lead_info (findEmail findPhone : String → Option String)
    (hist : List Msg) (modelOut : Except Unit (List (String × Option String))) :
    Dict :=
  let d := scanContact findEmail findPhone hist lead_data_init
  match modelOut with
  | .ok items => applyModelItems d items
  | .error _ => d

/-- `calculate_qualification_score` (`chatbot.py` lines 147-166): fixed
weighted sum over the truthiness of nine attribute slots. -/
def calculate_qualification_score (lead_data : Dict) : Nat :=
  (if truthyStr (dictGet lead_data "name") then 10 else 0) +
  (if truthyStr (dictGet lead_data "email") then 20 else 0) +
  (if truthyStr (dictGet lead_data "phone_number") then 20 else 0) +
  (if truthyStr (dictGet lead_data "vehicle_type") then 10 else 0) +
  (if truthyStr (dictGet lead_data "make_model_preference") then 10 else 0) +
  (if truthyStr (dictGet lead_data "new_or_used") then 5 else 0) +
  (if truthyStr (dictGet lead_data "budget_range") then 15 else 0) +
  (if truthyStr (dictGet lead_data "financing_needed") then 5 else 0) +
  (if truthyStr (dictGet lead_data "trade_in") then 5 else 0)

/-- The non-null fields of a lead record, over the fixed schema: the keys whose
value is not `None` (an empty string is non-null but falsy). -/
def nonNullFields (d : Dict) : List String :=
  schemaKeys.filter (fun k => (dictGet d k).isSome)

/-- A row of the `company_faq` corpus as seen by `get_relevant_context`:
`dist` is the cosine distance `embedding <=> query_embedding` computed by the
store for the current query (id, excerpt, url, metadata are irrelevant to the
claims and omitted). -/
structure KRec where
  title : String
  content : String
  dist : ℚ
deriving Repr, DecidableEq

/-- The similarity column `1 - (embedding <=> query)` of the SQL query. -/
def similarity (r : KRec) : ℚ := 1 - r.dist

/-- The ordering used by `ORDER BY embedding <=> %s::vector ASC`. -/
def distLe (a b : KRec) : Prop := a.dist ≤ b.dist

instance : DecidableRel distLe := fun a b => inferInstanceAs (Decidable (a.dist ≤ b.dist))

instance : IsTotal KRec distLe := ⟨fun a b => le_total a.dist b.dist⟩

instance : IsTrans KRec distLe := ⟨fun _ _ _ h1 h2 => le_trans h1 h2⟩

/-- The SQL query of `get_relevant_context` (`chatbot.py` lines 56-68):
order the corpus by ascending cosine distance to the query and keep the
first `limit` rows.  The `threshold` parameter of `get_relevant_context`
does not occur in the query. -/
def runQuery (corpus : List KRec) (limit : Nat) : List KRec :=
  (corpus.insertionSort distLe).take limit

/-- `get_relevant_context` (`chatbot.py` lines 39-86): the whole body is inside
`try/except`; `fail = true` models any exception from the embedding call or the
store round trip, in which case the function returns `[]`.  `threshold` is a
parameter of the Python function that the body never uses. -/
def get_relevant_context (threshold : ℚ) (limit : Nat)
    (corpus : List KRec) (fail : Bool) : List KRec :=
  if fail then [] else runQuery corpus limit

/-- The fixed fallback context string of `chat` (`chatbot.py` line 247). -/
def fallbackContext : String := "No specific information found."

/-- The context block built by `chat` (`chatbot.py` lines 240-248):
the joined retrieved snippets, or the fallback string when retrieval
returned nothing. -/
def contextOf (context_docs : List KRec) : String :=
  if context_docs.isEmpty then fallbackContext
  else String.intercalate "\n\n"
    (context_docs.map (fun doc => "Source: " ++ doc.title ++ "\n" ++ doc.content))

/-- A persisted row of the `leads` table (only the parts the claims are about:
the unique session key, the attribute record, the stored score). -/
structure LeadRow where
  session_id : String
  lead : Dict
  score : Nat

/-- The `leads` table, as the list of its rows (session keys unique by the
table's unique constraint; maintained by `save_lead` below). -/
def Db : Type := List LeadRow

/-- Whether the table already has a row for this session key. -/
def hasKey (db : Db) (key : String) : Bool :=
  db.any (fun r => r.session_id = key)

/-- `save_lead` (`chatbot.py` lines 168-227): recompute the score, run
`INSERT ... ON CONFLICT (session_id) DO UPDATE ... RETURNING *, (xmax = 0) AS
inserted`, and return the saved row plus the `inserted` flag; any exception
(`dbOk = false`) is caught and `None` is returned, with the table unchanged
(the upsert is a single atomic statement). -/
def save_lead (dbOk : Bool) (db : Db) (lead_data : Dict) (session_id : String) :
    Option (LeadRow × Bool × Db) :=
  if dbOk then
    let score := calculate_qualification_score lead_data
    let row : LeadRow := ⟨session_id, lead_data, score⟩
    if hasKey db session_id then
      some (row, false, db.map (fun r => if r.session_id = session_id then row else r))
    else
      some (row, true, row :: db)
  else none

/-- `send_lead_notification` (`send_email.py`): builds the subject/body (pure
string formatting) and posts to Mailgun inside `try/except`; it reports
success exactly when the post succeeded with status 200, and never raises
(every failure path only prints). -/
def send_lead_notification (postOutcome : Except Unit Nat) : Bool :=
  match postOutcome with
  | .ok status => status = 200
  | .error _ => false

/-- The per-turn outcomes of every external call made by one `chat` turn. -/
structure TurnInput where
  userMessage : String
  corpus : List KRec
  retrievalFail : Bool
  modelOut : Except Unit (List (String × Option String))
  completion : Except Unit String
  dbOk : Bool
  notifySend : Except Unit Nat

/-- The observable outcome of one successful `chat` turn. -/
structure ChatResult where
  reply : String
  history : List Msg
  db : Db
  context : String
  qualified : Bool
  saveOk : Bool
  wasInsert : Bool
  notified : Bool
  notifySuccess : Bool

/-- One turn of `chat` (`chatbot.py` lines 229-329): retrieval (degrading to
`[]` on failure), context assembly, extraction over history plus the new user
message, the completion call (whose failure is NOT caught and aborts the
turn), history append, then the qualification gate
`score >= 60 and lead_data.get("email")` guarding `save_lead`, and the
notification fired only when the upsert reported a fresh insert. -/
def chat (findEmail findPhone : String → Option String) (inp : TurnInput)
    (conversation_history : List Msg) (session_id : String) (db : Db) :
    Except Unit ChatResult :=
  let context_docs := get_relevant_context (45 / 100) 3 inp.corpus inp.retrievalFail
  let context := contextOf context_docs
  let lead_data := extract_lead_info findEmail findPhone
    (conversation_history ++ [⟨"user", inp.userMessage⟩]) inp.modelOut
  match inp.completion with
  | .error e => .error e
  | .ok assistant_message =>
    let history2 := conversation_history ++
      [⟨"user", inp.userMessage⟩, ⟨"assistant", assistant_message⟩]
    let score := calculate_qualification_score lead_data
    if 60 ≤ score ∧ truthyStr (dictGet lead_data "email") = true then
      match save_lead inp.dbOk db lead_data session_id with
      | some (_row, inserted, db2) =>
        .ok { reply := assistant_message, history := history2, db := db2,
              context := context, qualified := true, saveOk := true,
              wasInsert := inserted, notified := inserted,
              notifySuccess := inserted && send_lead_notification inp.notifySend }
      | none =>
        .ok { reply := assistant_message, history := history2, db := db,
              context := context, qualified := true, saveOk := false,
              wasInsert := false, notified := false, notifySuccess := false }
    else
      .ok { reply := assistant_message, history := history2, db := db,
            context := context, qualified := false, saveOk := false,
            wasInsert := false, notified := false, notifySuccess := false }

/-- The session loop of `interactive_chat` (`chatbot.py` lines 331-355)
restricted to one session: thread the history and the table through successive
`chat` turns; an uncaught exception (completion failure) ends the run. -/
def runChat (findEmail findPhone : String → Option String) (session_id : String) :
    Db → List Msg → List TurnInput → List ChatResult
  | _, _, [] => []
  | db, hist, inp :: rest =>
    match chat findEmail findPhone inp hist session_id db with
    | .error _ => []
    | .ok r => r :: runChat findEmail findPhone session_id r.db r.history rest

/-! ## Spec-side descriptions of the extraction passes -/

/-- Modelled from the spec's description of the deterministic pass: the last
match found among the user-authored turns, in history order ("the last match
found anywhere in history wins"). -/
def specLastUserMatch (f : String → Option String) (hist : List Msg) : Option String :=
  ((hist.filter (fun m => m.role == "user")).filterMap (fun m => f m.content)).getLast?

/-- The last truthy value the model pass supplies for key `k`
(`none` when the model output has no truthy entry for `k`). -/
def lastTruthyVal : List (String × Option String) → String → Option (Option String)
  | [], _ => none
  | kv :: t, k =>
    match lastTruthyVal t k with
    | some v => some v
    | none => if kv.1 = k ∧ truthyStr kv.2 = true then some kv.2 else none

/-! ## Helper lemmas about dicts and the extraction passes -/

theorem dictSet_apply (d : Dict) (k : String) (v : Option String) (k2 : String) :
    dictSet d k v k2 = if k2 = k then some v else d k2 := rfl

theorem getLast?_cons_elim {α : Type} (b : α) (l : List α) :
    (b :: l).getLast? = match l.getLast? with
      | some e => some e
      | none => some b := by
  induction l with
  | nil => rfl
  | cons c t _ =>
    rw [List.getLast?_cons_cons]
    cases h : (c :: t).getLast? with
    | none =>
      have hsome : ((c :: t).getLast?).isSome = true :=
        List.getLast?_isSome.mpr (by simp)
      rw [h] at hsome
      simp at hsome
    | some e => rfl

theorem specLastUserMatch_cons (f : String → Option String) (m : Msg) (t : List Msg) :
    specLastUserMatch f (m :: t) =
      match specLastUserMatch f t with
      | some e => some e
      | none => if m.role = "user" then f m.content else none := by
  unfold specLastUserMatch
  rw [List.filter_cons]
  by_cases hrole : m.role = "user"
  · simp only [hrole, if_pos]
    rw [show ((("user" : String) == "user") = true) from rfl]
    simp only [if_pos trivial, List.filterMap_cons]
    cases hf : f m.content with
    | none =>
      simp only [hrole, if_pos]
      cases hs : ((t.filter (fun m => m.role == "user")).filterMap
          (fun m => f m.content)).getLast? <;> simp [hs, hf]
    | some b =>
      rw [getLast?_cons_elim]
      cases hs : ((t.filter (fun m => m.role == "user")).filterMap
          (fun m => f m.content)).getLast? <;> simp [hs, hrole, hf]
  · have : (m.role == "user") = false := by
      simp [hrole]
    simp only [this, Bool.false_eq_true, if_neg, hrole, ite_false]
    cases hs : ((t.filter (fun m => m.role == "user")).filterMap
        (fun m => f m.content)).getLast? <;> simp [hs]

theorem scanStep_email (findEmail findPhone : String → Option String)
    (d : Dict) (m : Msg) :
    scanStep findEmail findPhone d m "email" =
      if m.role = "user" then
        (match findEmail m.content with
         | some e => some (some e)
         | none => d "email")
      else d "email" := by
  unfold scanStep
  by_cases hrole : m.role = "user"
  · simp only [hrole, if_pos]
    cases hf : findEmail m.content <;> cases hp : findPhone m.content <;>
      simp [dictSet_apply]
  · simp [hrole]

theorem scanStep_phone (findEmail findPhone : String → Option String)
    (d : Dict) (m : Msg) :
    scanStep findEmail findPhone d m "phone_number" =
      if m.role = "user" then
        (match findPhone m.content with
         | some p => some (some p)
         | none => d "phone_number")
      else d "phone_number" := by
  unfold scanStep
  by_cases hrole : m.role = "user"
  · simp only [hrole, if_pos]
    cases hf : findEmail m.content <;> cases hp : findPhone m.content <;>
      simp [dictSet_apply]
  · simp [hrole]

theorem scanStep_other (findEmail findPhone : String → Option String)
    (d : Dict) (m : Msg) (k : String)
    (hk1 : k ≠ "email") (hk2 : k ≠ "phone_number") :
    scanStep findEmail findPhone d m k = d k := by
  unfold scanStep
  by_cases hrole : m.role = "user"
  · simp only [hrole, if_pos]
    cases hf : findEmail m.content <;> cases hp : findPhone m.content <;>
      simp [dictSet_apply, hk1, hk2]
  · simp [hrole]

theorem scanContact_email (findEmail findPhone : String → Option String) :
    ∀ (hist : List Msg) (d : Dict),
      scanContact findEmail findPhone hist d "email" =
        match specLastUserMatch findEmail hist with
        | some e => some (some e)
        | none => d "email" := by
  intro hist
  induction hist with
  | nil => intro d; rfl
  | cons m t ih =>
    intro d
    rw [specLastUserMatch_cons]
    show scanContact findEmail findPhone t (scanStep findEmail findPhone d m) "email" = _
    rw [ih]
    cases hs : specLastUserMatch findEmail t with
    | some e => rfl
    | none =>
      rw [scanStep_email]
      by_cases hrole : m.role = "user"
      · simp only [hrole, if_pos]
      · simp [hrole]

theorem scanContact_phone (findEmail findPhone : String → Option String) :
    ∀ (hist : List Msg) (d : Dict),
      scanContact findEmail findPhone hist d "phone_number" =
        match specLastUserMatch findPhone hist with
        | some p => some (some p)
        | none => d "phone_number" := by
  intro hist
  induction hist with
  | nil => intro d; rfl
  | cons m t ih =>
    intro d
    rw [specLastUserMatch_cons]
    show scanContact findEmail findPhone t (scanStep findEmail findPhone d m) "phone_number" = _
    rw [ih]
    cases hs : specLastUserMatch findPhone t with
    | some p => rfl
    | none =>
      rw [scanStep_phone]
      by_cases hrole : m.role = "user"
      · simp only [hrole, if_pos]
      · simp [hrole]

theorem scanContact_other (findEmail findPhone : String → Option String)
    (k : String) (hk1 : k ≠ "email") (hk2 : k ≠ "phone_number") :
    ∀ (hist : List Msg) (d : Dict),
      scanContact findEmail findPhone hist d k = d k := by
  intro hist
  induction hist with
  | nil => intro d; rfl
  | cons m t ih =>
    intro d
    show scanContact findEmail findPhone t (scanStep findEmail findPhone d m) k = _
    rw [ih, scanStep_other findEmail findPhone d m k hk1 hk2]

theorem lastTruthyVal_cons (kv : String × Option String)
    (t : List (String × Option String)) (k : String) :
    lastTruthyVal (kv :: t) k =
      match lastTruthyVal t k with
      | some v => some v
      | none => if kv.1 = k ∧ truthyStr kv.2 = true then some kv.2 else none := rfl

theorem applyModelItems_apply :
    ∀ (items : List (String × Option String)) (d : Dict) (k : String),
      applyModelItems d items k =
        match lastTruthyVal items k with
        | some v => some v
        | none => d k := by
  intro items
  induction items with
  | nil => intro d k; rfl
  | cons kv t ih =>
    intro d k
    show applyModelItems (if truthyStr kv.2 = true then dictSet d kv.1 kv.2 else d) t k = _
    rw [ih, lastTruthyVal_cons]
    cases hs : lastTruthyVal t k with
    | some v => rfl
    | none =>
      by_cases htr : truthyStr kv.2 = true
      · by_cases hk : kv.1 = k
        · simp [htr, hk, dictSet_apply]
        · have hk2 : ¬(k = kv.1) := fun h => hk h.symm
          simp [htr, hk, dictSet_apply, hk2]
      · simp [htr]

theorem scanContact_init_email (findEmail findPhone : String → Option String)
    (hist : List Msg) :
    scanContact findEmail findPhone hist lead_data_init "email" =
      match specLastUserMatch findEmail hist with
      | some e => some (some e)
      | none => some none := by
  rw [scanContact_email findEmail findPhone hist lead_data_init]
  cases hs : specLastUserMatch findEmail hist with
  | some e => rfl
  | none => simp [lead_data_init, schemaKeys]

theorem scanContact_init_phone (findEmail findPhone : String → Option String)
    (hist : List Msg) :
    scanContact findEmail findPhone hist lead_data_init "phone_number" =
      match specLastUserMatch findPhone hist with
      | some p => some (some p)
      | none => some none := by
  rw [scanContact_phone findEmail findPhone hist lead_data_init]
  cases hs : specLastUserMatch findPhone hist with
  | some p => rfl
  | none => simp [lead_data_init, schemaKeys]

/-! ## Claims about the extractor -/

/-- C5: in the deterministic extraction pass, the email and phone fields are
taken only from user-authored turns (assistant turns are filtered out of
`specLastUserMatch`), the last match found anywhere in history wins for each
field, and the two fields are independent: the email field depends only on the
email matcher and the phone field only on the phone matcher. -/
theorem scanContact_last_user_match_wins
    (findEmail findPhone : String → Option String) (hist : List Msg) :
    (scanContact findEmail findPhone hist lead_data_init "email" =
      match specLastUserMatch findEmail hist with
      | some e => some (some e)
      | none => some none)
    ∧ (scanContact findEmail findPhone hist lead_data_init "phone_number" =
      match specLastUserMatch findPhone hist with
      | some p => some (some p)
      | none => some none) :=
  ⟨scanContact_init_email findEmail findPhone hist,
   scanContact_init_phone findEmail findPhone hist⟩

/-- C8: when the model-assisted pass fails (call error or unparseable output,
both swallowed by the bare `except`), `extract_lead_info` returns exactly the
deterministic pass's record: email and phone as matched from user turns, every
other schema field `None`, and no key outside the schema. -/
theorem extract_lead_info_model_failure_deterministic_only
    (findEmail findPhone : String → Option String) (hist : List Msg) (k : String) :
    extract_lead_info findEmail findPhone hist (.error ()) k =
      if k = "email" then
        (match specLastUserMatch findEmail hist with
         | some e => some (some e)
         | none => some none)
      else if k = "phone_number" then
        (match specLastUserMatch findPhone hist with
         | some p => some (some p)
         | none => some none)
      else if k ∈ schemaKeys then some none
      else none := by
  show scanContact findEmail findPhone hist lead_data_init k = _
  by_cases h1 : k = "email"
  · subst h1
    simp only [if_pos]
    exact scanContact_init_email findEmail findPhone hist
  · by_cases h2 : k = "phone_number"
    · subst h2
      rw [if_neg h1, if_pos rfl]
      exact scanContact_init_phone findEmail findPhone hist
    · rw [if_neg h1, if_neg h2,
        scanContact_other findEmail findPhone k h1 h2 hist lead_data_init]
      rfl

/-- The email matcher behaviour on the concrete counterexample message,
standing in for `re.search` of the email pattern. -/
def feCx : String → Option String :=
  fun s => if s = "my email is a@b.com" then some "a@b.com" else none

/-- A phone matcher that finds nothing. -/
def fpCx : String → Option String := fun _ => none

/-- A one-turn history in which the user states an email address. -/
def histCx : List Msg := [⟨"user", "my email is a@b.com"⟩]

/-- C1 counterexample: the deterministic pass extracts `a@b.com`, the model
pass reports the different non-null value `x@y.com` for the same field, and
the merged record keeps the MODEL's value, not the deterministic one —
`lead_data.update` overwrites every field whose model value is truthy. -/
theorem extract_merge_model_overwrites_deterministic :
    scanContact feCx fpCx histCx lead_data_init "email" = some (some "a@b.com")
    ∧ extract_lead_info feCx fpCx histCx
        (.ok [("email", some "x@y.com")]) "email" = some (some "x@y.com")
    ∧ ("x@y.com" : String) ≠ "a@b.com" := by
  refine ⟨rfl, rfl, ?_⟩
  decide

/-- C1 (amended): the merge follows "truthy model value wins": for every field,
the merged record holds the last truthy value the model pass supplied for that
field — even where the deterministic pass produced a non-null value — and
falls back to the deterministic pass's value only for fields with no truthy
model entry (in particular a null model value never overwrites a non-null
deterministic value). -/
theorem extract_merge_truthy_model_wins
    (findEmail findPhone : String → Option String) (hist : List Msg)
    (items : List (String × Option String)) (k : String) :
    extract_lead_info findEmail findPhone hist (.ok items) k =
      match lastTruthyVal items k with
      | some v => some v
      | none => scanContact findEmail findPhone hist lead_data_init k :=
  applyModelItems_apply items (scanContact findEmail findPhone hist lead_data_init) k

/-- C10: the extracted record is not restricted to the ten-attribute schema:
a truthy model-pass entry for a key outside the schema (here `company`) is
merged into the record unconditionally. -/
theorem extract_lead_info_keeps_extra_model_keys :
    ("company" ∉ schemaKeys)
    ∧ extract_lead_info (fun _ => none) (fun _ => none) []
        (.ok [("company", some "Acme")]) "company" = some (some "Acme") := by
  refine ⟨?_, rfl⟩
  decide

/-! ## Claims about the scorer -/

theorem score_term_mono (a b : Bool) (w : Nat) (h : a = true → b = true) :
    (if a = true then w else 0) ≤ (if b = true then w else 0) := by
  cases a with
  | false => simp
  | true => rw [h rfl]

/-- A record whose only known field is a name: it scores 10. -/
def r1Cx : Dict := dictSet lead_data_init "name" (some "Alice")

/-- A record whose non-null fields strictly include those of `r1Cx` — name and
email are both non-null — but both hold the empty string, which the scorer's
truthiness test ignores: it scores 0. -/
def r2Cx : Dict := dictSet (dictSet lead_data_init "name" (some "")) "email" (some "")

/-- C3 counterexample: the set of non-null fields of `r2Cx` is a strict
superset of that of `r1Cx`, yet `r2Cx` scores strictly lower: the scorer tests
Python truthiness, and a non-null empty-string value contributes nothing. -/
theorem score_nonnull_superset_not_monotone :
    (∀ k ∈ nonNullFields r1Cx, k ∈ nonNullFields r2Cx)
    ∧ (∃ k ∈ nonNullFields r2Cx, k ∉ nonNullFields r1Cx)
    ∧ calculate_qualification_score r2Cx < calculate_qualification_score r1Cx := by
  decide

/-- C3 (amended): the score is monotone in the set of TRUTHY fields (non-null
and non-empty): if every schema field that is truthy in `d1` is truthy in
`d2`, then `d2` scores at least as much as `d1`; in particular adding truthy
information never lowers the score. -/
theorem calculate_qualification_score_monotone (d1 d2 : Dict)
    (h : ∀ k ∈ schemaKeys,
      truthyStr (dictGet d1 k) = true → truthyStr (dictGet d2 k) = true) :
    calculate_qualification_score d1 ≤ calculate_qualification_score d2 := by
  unfold calculate_qualification_score
  refine Nat.add_le_add (Nat.add_le_add (Nat.add_le_add (Nat.add_le_add
    (Nat.add_le_add (Nat.add_le_add (Nat.add_le_add (Nat.add_le_add
      ?_ ?_) ?_) ?_) ?_) ?_) ?_) ?_) ?_
  all_goals exact score_term_mono _ _ _ (h _ (by decide))

/-- Witness for the amended C3 at a concrete pair of records. -/
theorem calculate_qualification_score_monotone_witness :
    (∀ k ∈ schemaKeys,
      truthyStr (dictGet lead_data_init k) = true → truthyStr (dictGet r1Cx k) = true)
    ∧ calculate_qualification_score lead_data_init ≤ calculate_qualification_score r1Cx :=
  ⟨by decide, calculate_qualification_score_monotone lead_data_init r1Cx (by decide)⟩

/-! ## Claims about retrieval -/

/-- C6: retrieval (on its non-failing path) returns at most `limit` records in
descending-similarity order; the `threshold` parameter never affects the
result (the returned set is determined by `limit` alone), and a returned
record can have similarity below the threshold. -/
theorem get_relevant_context_limit_and_order :
    (∀ t1 t2 : ℚ, ∀ (limit : Nat) (corpus : List KRec) (fail : Bool),
      get_relevant_context t1 limit corpus fail = get_relevant_context t2 limit corpus fail)
    ∧ (∀ (t : ℚ) (limit : Nat) (corpus : List KRec),
      (get_relevant_context t limit corpus false).length ≤ limit
      ∧ (get_relevant_context t limit corpus false).Sorted
          (fun a b => similarity b ≤ similarity a))
    ∧ (∃ corpus : List KRec, ∃ r ∈ get_relevant_context (45 / 100) 3 corpus false,
        similarity r < 45 / 100) := by
  refine ⟨fun t1 t2 limit corpus fail => rfl, fun t limit corpus => ⟨?_, ?_⟩, ?_⟩
  · show ((corpus.insertionSort distLe).take limit).length ≤ limit
    rw [List.length_take]
    exact min_le_left _ _
  · show (((corpus.insertionSort distLe).take limit)).Sorted _
    have hs : (corpus.insertionSort distLe).Sorted distLe :=
      List.sorted_insertionSort distLe corpus
    have ht : (((corpus.insertionSort distLe).take limit)).Sorted distLe :=
      List.Pairwise.sublist (List.take_sublist _ _) hs
    exact ht.imp (fun hab => sub_le_sub_left hab 1)
  · refine ⟨[⟨"t", "c", 9 / 10⟩], ⟨"t", "c", 9 / 10⟩, ?_, ?_⟩
    · show (⟨"t", "c", 9 / 10⟩ : KRec) ∈ [(⟨"t", "c", 9 / 10⟩ : KRec)]
      exact List.mem_singleton.mpr rfl
    · show (1 : ℚ) - 9 / 10 < 45 / 100
      norm_num

/-! ## Helper lemmas about the persistence layer and `chat` -/

theorem hasKey_cons (row : LeadRow) (db : Db) (key : String) :
    hasKey (row :: db) key = (decide (row.session_id = key) || hasKey db key) := by
  simp [hasKey, List.any_cons]

theorem hasKey_map_update (db : Db) (row : LeadRow) (key : String)
    (hrow : row.session_id = key) :
    hasKey (db.map (fun r => if r.session_id = key then row else r)) key =
      hasKey db key := by
  induction db with
  | nil => rfl
  | cons r0 t ih =>
    rw [List.map_cons, hasKey_cons, hasKey_cons, ih]
    by_cases h : r0.session_id = key
    · simp [h, hrow]
    · simp [h]

/-- Inversion of a successful `save_lead`: the `inserted` flag means exactly
"the session key was not already in the table", and afterwards the key is in
the table. -/
theorem save_lead_some (dbOk : Bool) (db : Db) (lead : Dict) (key : String)
    (row : LeadRow) (inserted : Bool) (db2 : Db)
    (h : save_lead dbOk db lead key = some (row, inserted, db2)) :
    inserted = !(hasKey db key) ∧ hasKey db2 key = true := by
  unfold save_lead at h
  split at h
  · split at h
    · rename_i hkey
      simp only [Option.some.injEq, Prod.mk.injEq] at h
      obtain ⟨h1, h2, h3⟩ := h
      subst h2; subst h3
      refine ⟨by simp [hkey], ?_⟩
      rw [hasKey_map_update db _ key rfl]
      exact hkey
    · rename_i hkey
      simp only [Option.some.injEq, Prod.mk.injEq] at h
      obtain ⟨h1, h2, h3⟩ := h
      subst h2; subst h3
      rw [Bool.not_eq_true] at hkey
      refine ⟨by simp [hkey], ?_⟩
      rw [hasKey_cons]
      simp
  · exact absurd h (by simp)

/-- Inversion of a failed `save_lead`: only a caught exception produces
`none`. -/
theorem save_lead_none (dbOk : Bool) (db : Db) (lead : Dict) (key : String)
    (h : save_lead dbOk db lead key = none) : dbOk = false := by
  unfold save_lead at h
  split at h
  · split at h <;> simp at h
  · rename_i hdb
    simp at hdb
    exact hdb

/-- Shape of a successful `chat` turn: the notification fires exactly on a
fresh insert; a successful save records `wasInsert` as "the key was not
already present" and leaves the key present afterwards; a turn that did not
save leaves the table unchanged and fires nothing. -/
theorem chat_ok_inv (findEmail findPhone : String → Option String)
    (inp : TurnInput) (hist : List Msg) (key : String) (db : Db) (r : ChatResult)
    (hok : chat findEmail findPhone inp hist key db = .ok r) :
    r.notified = r.wasInsert
    ∧ (r.saveOk = true →
        r.wasInsert = !(hasKey db key) ∧ hasKey r.db key = true)
    ∧ (r.saveOk = false → r.db = db ∧ r.wasInsert = false) := by
  unfold chat at hok
  cases hc : inp.completion with
  | error e => rw [hc] at hok; exact absurd hok (by simp)
  | ok s =>
    rw [hc] at hok
    simp only at hok
    split at hok
    · -- qualified: gate passed; split on the save_lead match
      split at hok
      · -- save_lead returned a row
        rename_i heq
        cases hok
        have hs := save_lead_some _ _ _ _ _ _ _ heq
        exact ⟨rfl, fun _ => ⟨hs.1, hs.2⟩, fun h => by simp at h⟩
      · -- save_lead returned none
        cases hok
        exact ⟨rfl, fun h => by simp at h, fun _ => ⟨rfl, rfl⟩⟩
    · -- gate failed
      cases hok
      exact ⟨rfl, fun h => by simp at h, fun _ => ⟨rfl, rfl⟩⟩

/-- Every turn of a run notifies exactly when its upsert was a fresh
insert. -/
theorem runChat_notified_eq_wasInsert
    (findEmail findPhone : String → Option String) (key : String) :
    ∀ (inputs : List TurnInput) (db : Db) (hist : List Msg) (r : ChatResult),
      r ∈ runChat findEmail findPhone key db hist inputs →
        r.notified = r.wasInsert := by
  intro inputs
  induction inputs with
  | nil => intro db hist r h; simp [runChat] at h
  | cons inp rest ih =>
    intro db hist r h
    rw [runChat] at h
    cases hc : chat findEmail findPhone inp hist key db with
    | error e => rw [hc] at h; simp at h
    | ok r1 =>
      rw [hc] at h
      simp only [List.mem_cons] at h
      cases h with
      | inl h => subst h; exact (chat_ok_inv _ _ _ _ _ _ _ hc).1
      | inr h => exact ih _ _ _ h

/-- Once the session key is in the table, no later turn of the session ever
notifies: every subsequent upsert is an update. -/
theorem runChat_no_notify_of_hasKey
    (findEmail findPhone : String → Option String) (key : String) :
    ∀ (inputs : List TurnInput) (db : Db) (hist : List Msg),
      hasKey db key = true →
        (runChat findEmail findPhone key db hist inputs).countP
          (fun r => r.notified) = 0 := by
  intro inputs
  induction inputs with
  | nil => intro db hist _; rfl
  | cons inp rest ih =>
    intro db hist hkey
    rw [runChat]
    cases hc : chat findEmail findPhone inp hist key db with
    | error e => rfl
    | ok r1 =>
      have inv := chat_ok_inv _ _ _ _ _ _ _ hc
      have hnot : r1.notified = false := by
        cases hs : r1.saveOk with
        | true =>
          rw [inv.1, (inv.2.1 hs).1, hkey]
          rfl
        | false =>
          rw [inv.1, (inv.2.2 hs).2]
      have hkey2 : hasKey r1.db key = true := by
        cases hs : r1.saveOk with
        | true => exact (inv.2.1 hs).2
        | false => rw [(inv.2.2 hs).1]; exact hkey
      rw [List.countP_cons, hnot]
      simp only [Bool.false_eq_true, if_false, Nat.add_zero]
      exact ih _ _ hkey2

/-- C2: across a sequence of two or more qualifying turns of the same session
(each turn passing the gate and successfully upserting, with no turn aborted),
starting from a table without the session key, exactly one notification is
sent — and every notification of the run happens on a turn whose upsert was a
fresh insert, never on an update. -/
theorem chat_notifies_exactly_once_per_session
    (findEmail findPhone : String → Option String) (key : String) (db : Db)
    (hist : List Msg) (inputs : List TurnInput)
    (hkey : hasKey db key = false)
    (hlen : 2 ≤ inputs.length)
    (hrun : (runChat findEmail findPhone key db hist inputs).length = inputs.length)
    (hqual : ∀ r ∈ runChat findEmail findPhone key db hist inputs,
        r.qualified = true ∧ r.saveOk = true) :
    (runChat findEmail findPhone key db hist inputs).countP
      (fun r => r.notified) = 1
    ∧ ∀ r ∈ runChat findEmail findPhone key db hist inputs,
        r.notified = r.wasInsert := by
  refine ⟨?_, fun r hr => runChat_notified_eq_wasInsert _ _ _ _ _ _ r hr⟩
  cases inputs with
  | nil => simp at hlen
  | cons inp rest =>
    rw [runChat] at hrun hqual ⊢
    cases hc : chat findEmail findPhone inp hist key db with
    | error e => rw [hc] at hrun; simp at hrun
    | ok r1 =>
      rw [hc] at hrun hqual
      have hq1 := hqual r1 (List.mem_cons_self r1 _)
      have inv := chat_ok_inv _ _ _ _ _ _ _ hc
      have hins : r1.wasInsert = true := by
        rw [(inv.2.1 hq1.2).1, hkey]
        rfl
      have hnot : r1.notified = true := by rw [inv.1, hins]
      have hkey2 : hasKey r1.db key = true := (inv.2.1 hq1.2).2
      rw [List.countP_cons, hnot]
      rw [runChat_no_notify_of_hasKey findEmail findPhone key rest r1.db r1.history hkey2]
      rfl

/-- A qualifying turn: the model pass supplies name, email, phone and budget,
worth 10+20+20+15 = 65 points, and every external call succeeds. -/
def inpQ : TurnInput :=
  { userMessage := "interested in an SUV",
    corpus := [],
    retrievalFail := false,
    modelOut := .ok [("name", some "Dana"), ("email", some "dana@example.com"),
                     ("phone_number", some "5551234567"),
                     ("budget_range", some "$20k-$35k")],
    completion := .ok "great",
    dbOk := true,
    notifySend := .ok 200 }

/-- A matcher that never matches (no pattern occurrence in the message). -/
def noMatch : String → Option String := fun _ => none

/-- Witness for C2: a concrete two-turn qualifying run notifies exactly
once. -/
theorem chat_notifies_exactly_once_per_session_witness :
    (runChat noMatch noMatch "s1" [] [] [inpQ, inpQ]).countP
      (fun r => r.notified) = 1 :=
  (chat_notifies_exactly_once_per_session noMatch noMatch "s1" [] [] [inpQ, inpQ]
    rfl (by decide) rfl (by decide)).1

/-- C4: the persistence gate. On a completed turn, the gate is passed exactly
when the score of the record extracted on this turn is at least 60 AND the
extracted email is present (truthy); the upsert is attempted and the
notification can fire only behind the gate; when the gate fails, the table is
untouched, no save happens and no notification fires. -/
theorem chat_persistence_gate (findEmail findPhone : String → Option String)
    (inp : TurnInput) (hist : List Msg) (key : String) (db : Db) (r : ChatResult)
    (hok : chat findEmail findPhone inp hist key db = .ok r) :
    (r.qualified = true ↔
      (60 ≤ calculate_qualification_score
          (extract_lead_info findEmail findPhone
            (hist ++ [⟨"user", inp.userMessage⟩]) inp.modelOut)
        ∧ truthyStr (dictGet
            (extract_lead_info findEmail findPhone
              (hist ++ [⟨"user", inp.userMessage⟩]) inp.modelOut) "email") = true))
    ∧ ((r.saveOk = true ∨ r.notified = true) → r.qualified = true)
    ∧ (r.qualified = false →
        r.db = db ∧ r.saveOk = false ∧ r.notified = false) := by
  unfold chat at hok
  cases hc : inp.completion with
  | error e => rw [hc] at hok; exact absurd hok (by simp)
  | ok s =>
    rw [hc] at hok
    simp only at hok
    split at hok
    · rename_i hgate
      split at hok
      · cases hok
        exact ⟨by simp [hgate], fun _ => rfl, fun h => by simp at h⟩
      · cases hok
        exact ⟨by simp [hgate], fun _ => rfl, fun h => by simp at h⟩
    · rename_i hgate
      cases hok
      refine ⟨by simp [hgate], ?_, fun _ => ⟨rfl, rfl, rfl⟩⟩
      rintro (h | h) <;> simp at h

/-- A non-qualifying turn: nothing is extracted, so the score is 0. -/
def inpNQ : TurnInput :=
  { userMessage := "hello",
    corpus := [],
    retrievalFail := false,
    modelOut := .ok [],
    completion := .ok "hi",
    dbOk := true,
    notifySend := .ok 200 }

/-- The result `chat` computes on `inpNQ` from an empty history and table. -/
def rNQ : ChatResult :=
  { reply := "hi",
    history := [⟨"user", "hello"⟩, ⟨"assistant", "hi"⟩],
    db := [],
    context := fallbackContext,
    qualified := false,
    saveOk := false,
    wasInsert := false,
    notified := false,
    notifySuccess := false }

/-- Witness for C4: on a concrete non-qualifying turn, no save and no
notification happen. -/
theorem chat_persistence_gate_witness :
    rNQ.db = ([] : Db) ∧ rNQ.saveOk = false ∧ rNQ.notified = false :=
  (chat_persistence_gate noMatch noMatch inpNQ [] "s1" [] rNQ rfl).2.2 rfl

/-- C7: retrieval failure (or an empty corpus) is non-fatal: retrieval
returns the empty list, the Composer uses the fixed fallback context string,
and as long as the completion call succeeds the turn still produces the
reply. -/
theorem chat_retrieval_failure_nonfatal (findEmail findPhone : String → Option String)
    (inp : TurnInput) (hist : List Msg) (key : String) (db : Db) (s : String)
    (hfail : inp.retrievalFail = true ∨ inp.corpus = [])
    (hcomp : inp.completion = .ok s) :
    get_relevant_context (45 / 100) 3 inp.corpus inp.retrievalFail = []
    ∧ ∃ r, chat findEmail findPhone inp hist key db = .ok r
        ∧ r.context = fallbackContext ∧ r.reply = s := by
  have hempty : get_relevant_context (45 / 100) 3 inp.corpus inp.retrievalFail = [] := by
    cases hfail with
    | inl h => simp [get_relevant_context, h]
    | inr h => cases hf : inp.retrievalFail <;> simp [get_relevant_context, h, runQuery]
  refine ⟨hempty, ?_⟩
  unfold chat
  rw [hcomp, hempty]
  simp only
  split
  · split
    · exact ⟨_, rfl, rfl, rfl⟩
    · exact ⟨_, rfl, rfl, rfl⟩
  · exact ⟨_, rfl, rfl, rfl⟩

/-- Witness for C7 at a concrete turn with an empty corpus. -/
theorem chat_retrieval_failure_nonfatal_witness :
    get_relevant_context (45 / 100) 3 inpNQ.corpus inpNQ.retrievalFail = []
    ∧ ∃ r, chat noMatch noMatch inpNQ [] "s1" [] = .ok r
        ∧ r.context = fallbackContext ∧ r.reply = "hi" :=
  chat_retrieval_failure_nonfatal noMatch noMatch inpNQ [] "s1" [] "hi"
    (Or.inr rfl) rfl

/-- C9: the only failure that escapes a turn of `chat` is a completion
failure, and it is that very error; whenever the completion call succeeds the
turn returns its reply, whatever the outcomes of retrieval, extraction,
persistence and notification were. -/
theorem chat_only_completion_failure_propagates
    (findEmail findPhone : String → Option String) (inp : TurnInput)
    (hist : List Msg) (key : String) (db : Db) :
    (∀ e, chat findEmail findPhone inp hist key db = .error e ↔
        inp.completion = .error e)
    ∧ (∀ s, inp.completion = .ok s →
        ∃ r, chat findEmail findPhone inp hist key db = .ok r ∧ r.reply = s) := by
  constructor
  · intro e
    unfold chat
    cases hc : inp.completion with
    | error e0 => simp
    | ok s =>
      simp only
      constructor
      · intro h
        split at h
        · split at h <;> simp at h
        · simp at h
      · intro h
        simp at h
  · intro s hs
    unfold chat
    rw [hs]
    simp only
    split
    · split
      · exact ⟨_, rfl, rfl⟩
      · exact ⟨_, rfl, rfl⟩
    · exact ⟨_, rfl, rfl⟩

end Chatbot
